import Mathlib

/-!
Shallow embedding of the bwtask project-management core: the project entity
model (`interfaces/Project.ts`, `interfaces/Status.ts`), the filter/sort
engine and the store actions of `stores/projectStore.ts`.

Conventions of the embedding:
* TS `Date` values are modelled by their millisecond timestamps (`Int`);
  JS `Date` objects are always truthy, so an optional date field is `Option Int`
  and truthiness is `Option.isSome`.
* JS numbers holding enum codes and ids are modelled as `Int`; the fractional
  quantities `Progress` and `Budget`, added and divided by `updateSummary`,
  are modelled as `Rat`.
* `new Date()` timestamps produced by the bulk actions are passed in as an
  explicit `now : Int` parameter.
* optional fields are `Option _`; JS string truthiness (`""` falsy) and
  `undefined` checks are translated explicitly at each use site.
-/

set_option maxHeartbeats 1000000

namespace Bwtask

/-- Checks that the first character list is an initial segment of the second
(used to model JS `String.prototype.includes`). -/
def charsLead : List Char → List Char → Bool
  | [], _ => true
  | _ :: _, [] => false
  | a :: as, b :: bs => a == b && charsLead as bs

/-- Checks that `needle` occurs contiguously inside the second list. -/
def charsContain (needle : List Char) : List Char → Bool
  | [] => needle.isEmpty
  | c :: rest => charsLead needle (c :: rest) || charsContain needle rest

/-- Models JS `hay.includes(needle)`. -/
def strContains (hay needle : String) : Bool :=
  charsContain needle.data hay.data

/-- Models JS `String.prototype.toLowerCase` as a character-wise lowercase map
(equivalent to `String.toLower`, stated over the character list so that it
evaluates by kernel reduction). -/
def strLower (s : String) : String :=
  String.mk (s.data.map Char.toLower)

-- Status enum codes from `interfaces/Status.ts`.
namespace Status

def NotStarted : Int := 0

def InProgress : Int := 1

def Completed : Int := 2

def OnHold : Int := 3

def Cancelled : Int := 4

def UnderReview : Int := 5

def Approved : Int := 6

def Rejected : Int := 7

end Status

/-- The member codes of the `Status` enumeration. -/
def statusEnumeration : List Int := [0, 1, 2, 3, 4, 5, 6, 7]

-- ProjectPriority enum codes from `interfaces/Project.ts`.
namespace ProjectPriority

def Low : Int := 0

def Medium : Int := 1

def High : Int := 2

def Critical : Int := 3

end ProjectPriority

/-- The `Project` record of `interfaces/Project.ts`. -/
structure Project where
  Id : Int
  Name : String
  Status : Int
  Description : Option String := none
  StartDate : Option Int := none
  EndDate : Option Int := none
  Owner : Option String := none
  Priority : Option Int := none
  Progress : Option Rat := none
  Budget : Option Rat := none
  Tags : Option (List String) := none
  CreatedDate : Option Int := none
  ModifiedDate : Option Int := none
  CreatedBy : Option String := none
  ModifiedBy : Option String := none
deriving DecidableEq

/-- The `ProjectFilter` record of `interfaces/Project.ts`. -/
structure ProjectFilter where
  status : Option Int := none
  priority : Option Int := none
  owner : Option String := none
  startDateFrom : Option Int := none
  startDateTo : Option Int := none
  searchText : Option String := none
  tags : Option (List String) := none
deriving DecidableEq

/-- Guard of `filterProjects` line 76: the search text is truthy and the
lowercased name does not include the lowercased search text. -/
def searchExcl (searchText : String) (project : Project) : Bool :=
  searchText != "" && !(strContains (strLower project.Name) (strLower searchText))

/-- Guard of `filterProjects` line 81: `filters.status !== undefined && project.Status !== filters.status`. -/
def statusExcl (filters : ProjectFilter) (project : Project) : Bool :=
  match filters.status with
  | some s => project.Status != s
  | none => false

/-- Guard of `filterProjects` line 86: `filters.priority !== undefined && project.Priority !== filters.priority`. -/
def priorityExcl (filters : ProjectFilter) (project : Project) : Bool :=
  match filters.priority with
  | some pr => project.Priority != some pr
  | none => false

/-- Guard of `filterProjects` line 91: `filters.owner && project.Owner !== filters.owner`
(an empty-string owner criterion is falsy and skips the check). -/
def ownerExcl (filters : ProjectFilter) (project : Project) : Bool :=
  match filters.owner with
  | some o => o != "" && project.Owner != some o
  | none => false

/-- Guard of `filterProjects` line 96: `filters.startDateFrom && project.StartDate && project.StartDate < filters.startDateFrom`
(Date objects are always truthy, so truthiness is presence). -/
def dateFromExcl (filters : ProjectFilter) (project : Project) : Bool :=
  match filters.startDateFrom, project.StartDate with
  | some f, some d => decide (d < f)
  | _, _ => false

/-- Guard of `filterProjects` line 100: `filters.startDateTo && project.StartDate && project.StartDate > filters.startDateTo`. -/
def dateToExcl (filters : ProjectFilter) (project : Project) : Bool :=
  match filters.startDateTo, project.StartDate with
  | some t, some d => decide (t < d)
  | _, _ => false

/-- Guard of `filterProjects` lines 105-115: the tags check fires when
`filters.tags` is present and non-empty and no requested tag matches. -/
def tagsExcl (filters : ProjectFilter) (project : Project) : Bool :=
  match filters.tags with
  | some ts =>
    !ts.isEmpty &&
      !(ts.any fun filterTag =>
         (project.Tags.getD []).any fun projectTag =>
           strContains (strLower projectTag) (strLower filterTag))
  | none => false

/-- The predicate of the `projects.filter` callback inside `filterProjects`
(`stores/projectStore.ts`, lines 74-118), translated guard by guard; each
`if ... return false` becomes one `if ... then false else` layer. -/
def projectPasses (filters : ProjectFilter) (searchText : String) (project : Project) : Bool :=
  if searchExcl searchText project then false
  else if statusExcl filters project then false
  else if priorityExcl filters project then false
  else if ownerExcl filters project then false
  else if dateFromExcl filters project then false
  else if dateToExcl filters project then false
  else if tagsExcl filters project then false
  else true

/-- `filterProjects` of `stores/projectStore.ts` (lines 73-120). -/
def filterProjects (projects : List Project) (filters : ProjectFilter)
    (searchText : String) : List Project :=
  projects.filter (projectPasses filters searchText)

/-- Spec-side conjunct: the separate search-text argument is empty or the name
contains it case-insensitively. -/
def searchOk (searchText : String) (p : Project) : Bool :=
  searchText == "" || strContains (strLower p.Name) (strLower searchText)

/-- Spec-side conjunct: status equality when the criteria's status is set. -/
def statusOk (c : ProjectFilter) (p : Project) : Bool :=
  match c.status with
  | none => true
  | some s => p.Status == s

/-- Spec-side conjunct: priority equality when the criteria's priority is set. -/
def priorityOk (c : ProjectFilter) (p : Project) : Bool :=
  match c.priority with
  | none => true
  | some pr => p.Priority == some pr

/-- Spec-side conjunct: owner equality when the criteria's owner is a
non-empty string. -/
def ownerOk (c : ProjectFilter) (p : Project) : Bool :=
  match c.owner with
  | none => true
  | some o => o == "" || p.Owner == some o

/-- Spec-side conjunct: inclusive lower bound on the start date, skipped when
either side is absent. -/
def dateFromOk (c : ProjectFilter) (p : Project) : Bool :=
  match c.startDateFrom, p.StartDate with
  | some f, some d => decide (f ≤ d)
  | _, _ => true

/-- Spec-side conjunct: inclusive upper bound on the start date, skipped when
either side is absent. -/
def dateToOk (c : ProjectFilter) (p : Project) : Bool :=
  match c.startDateTo, p.StartDate with
  | some t, some d => decide (d ≤ t)
  | _, _ => true

/-- Spec-side conjunct: when the criteria's tag list is non-empty, some
requested tag is a case-insensitive substring of some record tag. -/
def tagsOk (c : ProjectFilter) (p : Project) : Bool :=
  match c.tags with
  | none => true
  | some ts =>
    ts.isEmpty ||
      ts.any fun filterTag =>
        (p.Tags.getD []).any fun projectTag =>
          strContains (strLower projectTag) (strLower filterTag)

/-- Spec-side conjunct stated by the claim but absent from the code: the
criteria's own free-text search field as a case-insensitive substring test on
the name. -/
def criteriaSearchOk (c : ProjectFilter) (p : Project) : Bool :=
  match c.searchText with
  | none => true
  | some q => strContains (strLower p.Name) (strLower q)

/-- The conjunction of spec-side predicates that the code actually applies. -/
def specPasses (c : ProjectFilter) (s : String) (p : Project) : Bool :=
  searchOk s p && statusOk c p && priorityOk c p && ownerOk c p &&
    dateFromOk c p && dateToOk c p && tagsOk c p

/-- The claim's full predicate: every specified criteria predicate, the
criteria's own free-text search field included, plus the search-text argument. -/
def claimPasses (c : ProjectFilter) (s : String) (p : Project) : Bool :=
  specPasses c s p && criteriaSearchOk c p

theorem ite_false_chain (b r : Bool) : (if b = true then false else r) = (!b && r) := by
  cases b <;> simp

theorem not_searchExcl (s : String) (p : Project) : (!searchExcl s p) = searchOk s p := by
  unfold searchExcl searchOk
  cases h1 : s == "" <;> cases h2 : strContains (strLower p.Name) (strLower s) <;>
    simp [bne, h1, h2]

theorem not_statusExcl (c : ProjectFilter) (p : Project) : (!statusExcl c p) = statusOk c p := by
  unfold statusExcl statusOk
  cases c.status <;> simp [bne]

theorem not_priorityExcl (c : ProjectFilter) (p : Project) :
    (!priorityExcl c p) = priorityOk c p := by
  unfold priorityExcl priorityOk
  cases c.priority <;> simp [bne]

theorem not_ownerExcl (c : ProjectFilter) (p : Project) : (!ownerExcl c p) = ownerOk c p := by
  unfold ownerExcl ownerOk
  cases c.owner with
  | none => rfl
  | some o => cases h1 : o == "" <;> cases h2 : p.Owner == some o <;> simp [bne, h1, h2]

theorem not_dateFromExcl (c : ProjectFilter) (p : Project) :
    (!dateFromExcl c p) = dateFromOk c p := by
  unfold dateFromExcl dateFromOk
  cases c.startDateFrom <;> cases p.StartDate <;>
    simp [← decide_not, decide_eq_decide]

theorem not_dateToExcl (c : ProjectFilter) (p : Project) :
    (!dateToExcl c p) = dateToOk c p := by
  unfold dateToExcl dateToOk
  cases c.startDateTo <;> cases p.StartDate <;>
    simp [← decide_not, decide_eq_decide]

theorem not_tagsExcl (c : ProjectFilter) (p : Project) : (!tagsExcl c p) = tagsOk c p := by
  unfold tagsExcl tagsOk
  cases c.tags with
  | none => rfl
  | some ts =>
    cases h1 : ts.isEmpty <;>
      cases h2 : ts.any fun filterTag =>
        (p.Tags.getD []).any fun projectTag =>
          strContains (strLower projectTag) (strLower filterTag) <;>
      simp [h1, h2]

theorem projectPasses_eq_specPasses (c : ProjectFilter) (s : String) (p : Project) :
    projectPasses c s p = specPasses c s p := by
  unfold projectPasses specPasses
  simp only [ite_false_chain, Bool.and_true]
  rw [not_searchExcl, not_statusExcl, not_priorityExcl, not_ownerExcl, not_dateFromExcl,
    not_dateToExcl, not_tagsExcl]
  simp [Bool.and_assoc]

/-- C1 counterexample: `filterProjects` ignores the criteria's own `searchText`
field. With a record named "Alpha", criteria whose `searchText` is "zzz" and an
empty search-text argument, the code keeps the record while the claim's
predicate (which includes the criteria's free-text field) rejects it, so the
output differs from the claimed filter. -/
theorem filterProjects_claim_counterexample :
    filterProjects [{ Id := 1, Name := "Alpha", Status := 0 }]
        { searchText := some "zzz" } "" =
      [{ Id := 1, Name := "Alpha", Status := 0 }] ∧
    List.filter (claimPasses { searchText := some "zzz" } "")
        [{ Id := 1, Name := "Alpha", Status := 0 }] = [] ∧
    criteriaSearchOk { searchText := some "zzz" }
        { Id := 1, Name := "Alpha", Status := 0 } = false := by
  exact ⟨by decide, by decide, by decide⟩

/-- C1 (amended): `filterProjects records criteria searchText` returns exactly
the records, in input order, for which every predicate the code applies holds:
the separate search-text argument is empty or the name contains it
case-insensitively; status equality and priority equality when those criteria
fields are set; owner equality when the criteria owner is a non-empty string;
the inclusive start-date bounds whenever both the bound and the record's start
date are present; and, when the criteria tag list is present and non-empty,
some requested tag is a case-insensitive substring of some record tag. The
criteria's own `searchText` field is not consulted. -/
theorem filterProjects_spec (records : List Project) (c : ProjectFilter) (s : String) :
    filterProjects records c s = records.filter (fun p => specPasses c s p) ∧
      (filterProjects records c s).Sublist records := by
  constructor
  · exact List.filter_congr fun p _ => projectPasses_eq_specPasses c s p
  · exact List.filter_sublist _

/-- C2: the date-range guards of the filter are inclusive on both bounds for a
record with a start date, and are skipped entirely for a record without one:
such a record is filtered exactly as if no date bounds were set. -/
theorem filter_dateRange_spec (c : ProjectFilter) (s : String) (p : Project) :
    (∀ f d, c.startDateFrom = some f → p.StartDate = some d →
       dateFromOk c p = decide (f ≤ d)) ∧
    (∀ t d, c.startDateTo = some t → p.StartDate = some d →
       dateToOk c p = decide (d ≤ t)) ∧
    (p.StartDate = none →
       projectPasses c s p =
         projectPasses { c with startDateFrom := none, startDateTo := none } s p) ∧
    (∀ f d, c.startDateFrom = some f → p.StartDate = some d → d < f →
       projectPasses c s p = false) ∧
    (∀ f d, c.startDateFrom = some f → p.StartDate = some d → f ≤ d →
       projectPasses c s p = projectPasses { c with startDateFrom := none } s p) ∧
    (∀ t d, c.startDateTo = some t → p.StartDate = some d → t < d →
       projectPasses c s p = false) ∧
    (∀ t d, c.startDateTo = some t → p.StartDate = some d → d ≤ t →
       projectPasses c s p = projectPasses { c with startDateTo := none } s p) := by
  refine ⟨?_, ?_, ?_, ?_, ?_, ?_, ?_⟩
  · intro f d hf hd
    unfold dateFromOk
    rw [hf, hd]
  · intro t d ht hd
    unfold dateToOk
    rw [ht, hd]
  · intro hd
    simp only [projectPasses_eq_specPasses]
    unfold specPasses searchOk statusOk priorityOk ownerOk dateFromOk dateToOk tagsOk
    cases c.startDateFrom <;> cases c.startDateTo <;> simp [hd]
  · intro f d hf hd hlt
    simp only [projectPasses_eq_specPasses]
    unfold specPasses dateFromOk
    rw [hf, hd]
    simp [show ¬ f ≤ d by omega]
  · intro f d hf hd hle
    simp only [projectPasses_eq_specPasses]
    unfold specPasses searchOk statusOk priorityOk ownerOk dateFromOk dateToOk tagsOk
    rw [hf, hd]
    simp [hle, hd]
  · intro t d ht hd hlt
    simp only [projectPasses_eq_specPasses]
    unfold specPasses dateToOk
    rw [ht, hd]
    simp [show ¬ d ≤ t by omega]
  · intro t d ht hd hle
    simp only [projectPasses_eq_specPasses]
    unfold specPasses searchOk statusOk priorityOk ownerOk dateFromOk dateToOk tagsOk
    rw [ht, hd]
    simp [hle, hd]

/-- C2 witness: at a record with start date 12 the from-bound 10 passes, and
at a record with start date 5 the whole filter predicate rejects. -/
theorem filter_dateRange_witness :
    dateFromOk { startDateFrom := some 10 }
        { Id := 1, Name := "A", Status := 0, StartDate := some 12 } = true ∧
    projectPasses { startDateFrom := some 10 } ""
        { Id := 1, Name := "A", Status := 0, StartDate := some 5 } = false := by
  constructor
  · rw [(filter_dateRange_spec { startDateFrom := some 10 } ""
      { Id := 1, Name := "A", Status := 0, StartDate := some 12 }).1 10 12 rfl rfl]
    decide
  · exact (filter_dateRange_spec { startDateFrom := some 10 } ""
      { Id := 1, Name := "A", Status := 0, StartDate := some 5 }).2.2.2.1 10 5 rfl rfl
      (by decide)

-- Sort fields and directions: the `sortBy` / `sortDirection` union types of
-- `ProjectState` (`stores/projectStore.ts`, lines 21-22).
inductive SortField
  | name
  | status
  | priority
  | startDate
  | progress
deriving DecidableEq

inductive SortDirection
  | asc
  | desc
deriving DecidableEq

/-- The final comparison of the `sortProjects` comparator (lines 152-154):
`-1`/`1` flipped by direction, `0` on ties. -/
def cmpVal {α : Type} [LinearOrder α] (dir : SortDirection) (x y : α) : Int :=
  if x < y then (match dir with | SortDirection.asc => -1 | SortDirection.desc => 1)
  else if y < x then (match dir with | SortDirection.asc => 1 | SortDirection.desc => -1)
  else 0

/-- The comparator of `sortProjects` (lines 123-154): per-field key extraction
(name lowercased, `Priority`/`Progress` defaulting to 0, `StartDate` to the
epoch) followed by the three-way comparison. -/
def projectCompare (sortBy : SortField) (dir : SortDirection) (a b : Project) : Int :=
  match sortBy with
  | SortField.name => cmpVal dir (strLower a.Name) (strLower b.Name)
  | SortField.status => cmpVal dir a.Status b.Status
  | SortField.priority => cmpVal dir (a.Priority.getD 0) (b.Priority.getD 0)
  | SortField.startDate => cmpVal dir (a.StartDate.getD 0) (b.StartDate.getD 0)
  | SortField.progress => cmpVal dir (a.Progress.getD 0) (b.Progress.getD 0)

/-- The "sorts before or ties" relation induced by the comparator. JS
`Array.prototype.sort` is stable (ES2019) and, for a consistent comparator,
produces exactly the stable order with respect to this relation. -/
def sortLe (sortBy : SortField) (dir : SortDirection) (a b : Project) : Bool :=
  decide (projectCompare sortBy dir a b ≤ 0)

/-- `sortProjects` of `stores/projectStore.ts` (lines 122-156): non-mutating
(`[...projects].sort`) stable sort by the comparator. -/
def sortProjects (projects : List Project) (sortBy : SortField)
    (dir : SortDirection) : List Project :=
  projects.mergeSort (sortLe sortBy dir)

theorem cmpVal_nonpos {α : Type} [LinearOrder α] (d : SortDirection) (x y : α) :
    (cmpVal d x y ≤ 0) ↔
      (match d with
       | SortDirection.asc => x ≤ y
       | SortDirection.desc => y ≤ x) := by
  unfold cmpVal
  rcases lt_trichotomy x y with h | h | h
  · rw [if_pos h]
    cases d <;> simp [h.le, not_le.mpr h]
  · subst h
    rw [if_neg (lt_irrefl x), if_neg (lt_irrefl x)]
    cases d <;> simp
  · rw [if_neg (not_lt.mpr h.le), if_pos h]
    cases d <;> simp [h.le, not_le.mpr h]

theorem cmpVal_swap {α : Type} [LinearOrder α] (d : SortDirection) (x y : α) :
    cmpVal d y x = -cmpVal d x y := by
  unfold cmpVal
  rcases lt_trichotomy x y with h | h | h
  · rw [if_pos h, if_neg (not_lt.mpr h.le), if_pos h]
    cases d <;> decide
  · subst h
    simp [lt_irrefl]
  · rw [if_pos h, if_neg (not_lt.mpr h.le), if_pos h]
    cases d <;> decide

theorem cmpVal_desc_eq_neg {α : Type} [LinearOrder α] (x y : α) :
    cmpVal SortDirection.desc x y = -cmpVal SortDirection.asc x y := by
  unfold cmpVal
  rcases lt_trichotomy x y with h | h | h
  · rw [if_pos h, if_pos h]
    decide
  · subst h
    simp [lt_irrefl]
  · rw [if_neg (not_lt.mpr h.le), if_pos h, if_neg (not_lt.mpr h.le), if_pos h]

theorem sortLe_total (f : SortField) (d : SortDirection) (a b : Project) :
    sortLe f d a b || sortLe f d b a := by
  unfold sortLe
  cases f <;> cases d <;> simp [projectCompare, cmpVal_nonpos] <;> exact le_total _ _

theorem sortLe_trans (f : SortField) (d : SortDirection) (a b c : Project) :
    sortLe f d a b → sortLe f d b c → sortLe f d a c := by
  unfold sortLe
  cases f <;> cases d <;> simp [projectCompare, cmpVal_nonpos] <;>
    · intro h1 h2
      first
        | exact le_trans h1 h2
        | exact le_trans h2 h1

theorem projectCompare_swap (f : SortField) (d : SortDirection) (a b : Project) :
    projectCompare f d b a = -projectCompare f d a b := by
  cases f <;> simp only [projectCompare] <;> exact cmpVal_swap d _ _

theorem projectCompare_desc_eq_neg (f : SortField) (a b : Project) :
    projectCompare f SortDirection.desc a b = -projectCompare f SortDirection.asc a b := by
  cases f <;> simp only [projectCompare] <;> exact cmpVal_desc_eq_neg _ _

/-- Two sorted lists that are permutations of each other are equal, assuming
antisymmetry only on the members of the first list. -/
theorem eq_of_perm_of_sorted_on {α : Type} {r : α → α → Prop} :
    ∀ {l₁ l₂ : List α}, l₁.Perm l₂ → l₁.Pairwise r → l₂.Pairwise r →
      (∀ a ∈ l₁, ∀ b ∈ l₁, r a b → r b a → a = b) → l₁ = l₂ := by
  intro l₁
  induction l₁ with
  | nil =>
    intro l₂ hp _ _ _
    exact (hp.symm.eq_nil).symm
  | cons a t₁ ih =>
    intro l₂ hp h₁ h₂ anti
    cases l₂ with
    | nil => exact absurd hp.eq_nil (by simp)
    | cons b t₂ =>
      by_cases hab : a = b
      · subst hab
        have ht : t₁.Perm t₂ := hp.cons_inv
        have : t₁ = t₂ :=
          ih ht h₁.tail h₂.tail
            (fun x hx y hy => anti x (List.mem_cons_of_mem a hx) y (List.mem_cons_of_mem a hy))
        rw [this]
      · exfalso
        have haMem : a ∈ t₂ := by
          have : a ∈ b :: t₂ := hp.subset (List.mem_cons_self a t₁)
          rcases List.mem_cons.mp this with h | h
          · exact absurd h hab
          · exact h
        have hbMem : b ∈ t₁ := by
          have : b ∈ a :: t₁ := hp.symm.subset (List.mem_cons_self b t₂)
          rcases List.mem_cons.mp this with h | h
          · exact absurd h.symm hab
          · exact h
        have hrab : r a b := List.rel_of_pairwise_cons h₁ hbMem
        have hrba : r b a := List.rel_of_pairwise_cons h₂ haMem
        exact hab (anti a (List.mem_cons_self a t₁) b (List.mem_cons_of_mem a hbMem) hrab hrba)

/-- C3: for a sort field under which no two records of the list tie, sorting
ascending and then descending yields exactly the reversal of the ascending
order. -/
theorem sortProjects_asc_desc_reverse (l : List Project) (f : SortField)
    (hnt : l.Pairwise fun a b => projectCompare f SortDirection.asc a b ≠ 0) :
    sortProjects (sortProjects l f SortDirection.asc) f SortDirection.desc =
      (sortProjects l f SortDirection.asc).reverse := by
  unfold sortProjects
  set s := l.mergeSort (sortLe f SortDirection.asc) with hs
  have hsymm : ∀ {x y : Project},
      projectCompare f SortDirection.asc x y ≠ 0 →
        projectCompare f SortDirection.asc y x ≠ 0 := by
    intro x y h
    rw [projectCompare_swap]
    simpa using h
  have hperm_sl : s.Perm l := List.mergeSort_perm l _
  have hnts : s.Pairwise fun a b => projectCompare f SortDirection.asc a b ≠ 0 :=
    (hperm_sl.pairwise_iff fun h => hsymm h).mpr hnt
  have hsorted : s.Pairwise fun a b => sortLe f SortDirection.asc a b :=
    List.sorted_mergeSort (sortLe_trans f SortDirection.asc)
      (sortLe_total f SortDirection.asc) l
  have hstrict : s.Pairwise fun a b => projectCompare f SortDirection.asc a b < 0 := by
    refine (hsorted.and hnts).imp ?_
    intro a b hab
    have h1 : projectCompare f SortDirection.asc a b ≤ 0 := by
      have := hab.1
      simpa [sortLe] using this
    exact lt_of_le_of_ne h1 hab.2
  have hrev_sorted : s.reverse.Pairwise fun a b => sortLe f SortDirection.desc a b := by
    rw [List.pairwise_reverse]
    refine hstrict.imp ?_
    intro a b hab
    have hba : projectCompare f SortDirection.desc b a =
        projectCompare f SortDirection.asc a b := by
      rw [projectCompare_desc_eq_neg, projectCompare_swap, neg_neg]
    simp only [sortLe, decide_eq_true_eq, hba]
    omega
  have ht_sorted :
      (s.mergeSort (sortLe f SortDirection.desc)).Pairwise
        fun a b => sortLe f SortDirection.desc a b :=
    List.sorted_mergeSort (sortLe_trans f SortDirection.desc)
      (sortLe_total f SortDirection.desc) s
  have ht_perm : (s.mergeSort (sortLe f SortDirection.desc)).Perm s.reverse :=
    (List.mergeSort_perm s _).trans s.reverse_perm.symm
  refine eq_of_perm_of_sorted_on ht_perm ht_sorted hrev_sorted ?_
  intro a ha b hb h1 h2
  have ha' : a ∈ s := List.mem_mergeSort.mp ha
  have hb' : b ∈ s := List.mem_mergeSort.mp hb
  by_contra hne
  have hne' : projectCompare f SortDirection.asc a b ≠ 0 :=
    hnts.forall (fun x y h => hsymm h) ha' hb' hne
  have e1 : projectCompare f SortDirection.desc a b ≤ 0 := by
    simpa [sortLe] using h1
  have e2 : projectCompare f SortDirection.desc b a ≤ 0 := by
    simpa [sortLe] using h2
  rw [projectCompare_swap] at e2
  have : projectCompare f SortDirection.desc a b = 0 := by omega
  rw [projectCompare_desc_eq_neg] at this
  exact hne' (by omega)

/-- C3 witness: a two-record list with distinct statuses, sorted ascending
then descending by status, is reversed. -/
theorem sortProjects_asc_desc_witness :
    sortProjects
        (sortProjects [{ Id := 1, Name := "A", Status := 2 },
          { Id := 2, Name := "B", Status := 1 }] SortField.status SortDirection.asc)
        SortField.status SortDirection.desc =
      (sortProjects [{ Id := 1, Name := "A", Status := 2 },
        { Id := 2, Name := "B", Status := 1 }] SortField.status SortDirection.asc).reverse :=
  sortProjects_asc_desc_reverse _ SortField.status
    (List.pairwise_pair.mpr (by decide))

/-- C4: `sortProjects` returns a permutation of its input (it never mutates
the input list) of the same length, and is stable: two records whose
comparator keys for the field are equal and which occur as a pair-sublist of
the input occur in the same relative order in the output, for either
direction. -/
theorem sortProjects_stable (l : List Project) (f : SortField) (d : SortDirection) :
    (sortProjects l f d).Perm l ∧
    (sortProjects l f d).length = l.length ∧
    (∀ a b, projectCompare f SortDirection.asc a b = 0 →
      [a, b].Sublist l → [a, b].Sublist (sortProjects l f d)) := by
  refine ⟨List.mergeSort_perm l _, by simp [sortProjects], ?_⟩
  intro a b hab hsub
  have hle : sortLe f d a b := by
    have h : projectCompare f d a b = 0 := by
      cases d
      · exact hab
      · rw [projectCompare_desc_eq_neg, hab]
        rfl
    simp [sortLe, h]
  exact List.pair_sublist_mergeSort (sortLe_trans f d) (sortLe_total f d) hle hsub

/-- C4 witness: two records tying on status stay in input order after a
descending status sort. -/
theorem sortProjects_stable_witness :
    ([{ Id := 1, Name := "A", Status := 1 }, { Id := 2, Name := "B", Status := 1 }] :
        List Project).Sublist
      (sortProjects [{ Id := 1, Name := "A", Status := 1 },
        { Id := 2, Name := "B", Status := 1 }] SortField.status SortDirection.desc) :=
  (sortProjects_stable _ SortField.status SortDirection.desc).2.2 _ _ (by decide)
    (List.Sublist.refl _)

/-- The `ProjectSummary` record of `interfaces/Project.ts`. -/
structure ProjectSummary where
  totalProjects : Nat
  activeProjects : Nat
  completedProjects : Nat
  onHoldProjects : Nat
  notStartedProjects : Nat
  averageProgress : Rat
  totalBudget : Rat
deriving DecidableEq

/-- The data slice of the zustand store state (`stores/projectStore.ts`,
lines 10-27); the action closures of the store become functions from state to
state below. -/
structure ProjectState where
  projects : List Project := []
  selectedProject : Option Project := none
  projectSummary : Option ProjectSummary := none
  isLoading : Bool := false
  error : Option String := none
  filters : ProjectFilter := {}
  searchText : String := ""
  sortBy : SortField := SortField.name
  sortDirection : SortDirection := SortDirection.asc
  isPanelOpen : Bool := false
  isCreateModalOpen : Bool := false
  isEditMode : Bool := false
deriving DecidableEq

/-- The summary computed inside `updateSummary` (lines 311-339). -/
def computeSummary (projects : List Project) : ProjectSummary :=
  let totalProjects := projects.length
  let activeProjects := (projects.filter fun p => p.Status == Status.InProgress).length
  let completedProjects := (projects.filter fun p => p.Status == Status.Completed).length
  let onHoldProjects := (projects.filter fun p => p.Status == Status.OnHold).length
  let notStartedProjects := (projects.filter fun p => p.Status == Status.NotStarted).length
  let totalProgress : Rat := projects.foldl (fun sum p => sum + p.Progress.getD 0) 0
  let totalBudget : Rat := projects.foldl (fun sum p => sum + p.Budget.getD 0) 0
  { totalProjects := totalProjects
    activeProjects := activeProjects
    completedProjects := completedProjects
    onHoldProjects := onHoldProjects
    notStartedProjects := notStartedProjects
    averageProgress := if 0 < totalProjects then totalProgress / (totalProjects : Rat) else 0
    totalBudget := totalBudget }

/-- `updateSummary` store action (lines 311-339). -/
def updateSummary (state : ProjectState) : ProjectState :=
  { state with projectSummary := some (computeSummary state.projects) }

theorem foldl_add_getD (f : Project → Rat) :
    ∀ (l : List Project) (init : Rat),
      l.foldl (fun sum p => sum + f p) init = init + (l.map f).sum := by
  intro l
  induction l with
  | nil => intro init; simp
  | cons p t ih => intro init; simp [ih, add_assoc]

theorem count_buckets_le (l : List Project) :
    (l.countP fun p => p.Status == Status.InProgress) +
        (l.countP fun p => p.Status == Status.Completed) +
        (l.countP fun p => p.Status == Status.OnHold) +
        (l.countP fun p => p.Status == Status.NotStarted) ≤
      l.length := by
  induction l with
  | nil => simp
  | cons x xs ih =>
    simp only [List.countP_cons, List.length_cons, Status.InProgress, Status.Completed,
      Status.OnHold, Status.NotStarted, beq_iff_eq] at ih ⊢
    split_ifs <;> omega

/-- C5: the summary stored by `updateSummary` counts the whole collection,
counts each of the four tracked status buckets (mutually exclusively, so the
buckets never exceed the total), sums budgets with missing values as 0, and
averages progress over the record count with 0 for the empty collection; the
spec's empty-collection and two-record scenarios evaluate as claimed. -/
theorem updateSummary_spec (st : ProjectState) :
    (updateSummary st).projectSummary = some (computeSummary st.projects) ∧
    (computeSummary st.projects).totalProjects = st.projects.length ∧
    (computeSummary st.projects).activeProjects =
      (st.projects.countP fun p => p.Status == Status.InProgress) ∧
    (computeSummary st.projects).completedProjects =
      (st.projects.countP fun p => p.Status == Status.Completed) ∧
    (computeSummary st.projects).onHoldProjects =
      (st.projects.countP fun p => p.Status == Status.OnHold) ∧
    (computeSummary st.projects).notStartedProjects =
      (st.projects.countP fun p => p.Status == Status.NotStarted) ∧
    (computeSummary st.projects).activeProjects +
        (computeSummary st.projects).completedProjects +
        (computeSummary st.projects).onHoldProjects +
        (computeSummary st.projects).notStartedProjects ≤
      (computeSummary st.projects).totalProjects ∧
    (computeSummary st.projects).totalBudget =
      (st.projects.map fun p => p.Budget.getD 0).sum ∧
    (st.projects = [] →
      computeSummary st.projects =
        { totalProjects := 0, activeProjects := 0, completedProjects := 0,
          onHoldProjects := 0, notStartedProjects := 0, averageProgress := 0,
          totalBudget := 0 }) ∧
    (st.projects ≠ [] →
      (computeSummary st.projects).averageProgress =
        (st.projects.map fun p => p.Progress.getD 0).sum / (st.projects.length : Rat)) ∧
    computeSummary
        [{ Id := 1, Name := "Test Project 1", Status := Status.InProgress,
            Progress := some 50 },
          { Id := 2, Name := "Test Project 2", Status := Status.Completed,
            Progress := some 100 }] =
      { totalProjects := 2, activeProjects := 1, completedProjects := 1,
        onHoldProjects := 0, notStartedProjects := 0, averageProgress := 75,
        totalBudget := 0 } := by
  refine ⟨rfl, rfl, ?_, ?_, ?_, ?_, ?_, ?_, ?_, ?_, ?scenario⟩
  case scenario =>
    norm_num [computeSummary, Status.InProgress, Status.Completed, Status.OnHold,
      Status.NotStarted, ProjectSummary.mk.injEq, List.filter_cons]
  · simp [computeSummary, List.countP_eq_length_filter]
  · simp [computeSummary, List.countP_eq_length_filter]
  · simp [computeSummary, List.countP_eq_length_filter]
  · simp [computeSummary, List.countP_eq_length_filter]
  · simpa [computeSummary, List.countP_eq_length_filter] using count_buckets_le st.projects
  · simp [computeSummary, foldl_add_getD]
  · intro h
    rw [h]
    decide
  · intro h
    have hlen : 0 < st.projects.length := List.length_pos.mpr h
    simp [computeSummary, foldl_add_getD, hlen]

/-- C5 witness: the empty store yields the all-zero summary and a singleton
store averages to its own progress. -/
theorem updateSummary_witness :
    computeSummary ([] : List Project) =
      { totalProjects := 0, activeProjects := 0, completedProjects := 0,
        onHoldProjects := 0, notStartedProjects := 0, averageProgress := 0,
        totalBudget := 0 } ∧
    (computeSummary [{ Id := 7, Name := "Solo", Status := 0, Progress := some 40 }]).averageProgress =
      ((([{ Id := 7, Name := "Solo", Status := 0, Progress := some 40 }] :
          List Project).map fun p => p.Progress.getD 0).sum /
        ((([{ Id := 7, Name := "Solo", Status := 0, Progress := some 40 }] :
          List Project).length : Nat) : Rat)) := by
  constructor
  · exact (updateSummary_spec { projects := [] }).2.2.2.2.2.2.2.2.1 rfl
  · exact (updateSummary_spec
      { projects := [{ Id := 7, Name := "Solo", Status := 0, Progress := some 40 }] }).2.2.2.2.2.2.2.2.2.1
      (by decide)

/-- The `StatusInfo` record of `interfaces/Status.ts` (lines 16-22). -/
structure StatusInfo where
  value : Int
  label : String
  color : String
  backgroundColor : String
  description : String
deriving DecidableEq

def notStartedInfo : StatusInfo :=
  { value := Status.NotStarted, label := "Not Started", color := "#605e5c",
    backgroundColor := "#f3f2f1", description := "Project has not been started yet" }

def inProgressInfo : StatusInfo :=
  { value := Status.InProgress, label := "In Progress", color := "#0078d4",
    backgroundColor := "#deecf9", description := "Project is currently being worked on" }

def completedInfo : StatusInfo :=
  { value := Status.Completed, label := "Completed", color := "#107c10",
    backgroundColor := "#dff6dd", description := "Project has been successfully completed" }

def onHoldInfo : StatusInfo :=
  { value := Status.OnHold, label := "On Hold", color := "#d13438",
    backgroundColor := "#fde7e9", description := "Project is temporarily paused" }

def cancelledInfo : StatusInfo :=
  { value := Status.Cancelled, label := "Cancelled", color := "#a4262c",
    backgroundColor := "#fde7e9", description := "Project has been cancelled" }

def underReviewInfo : StatusInfo :=
  { value := Status.UnderReview, label := "Under Review", color := "#8764b8",
    backgroundColor := "#f4f1fa", description := "Project is being reviewed" }

def approvedInfo : StatusInfo :=
  { value := Status.Approved, label := "Approved", color := "#498205",
    backgroundColor := "#e9f7df", description := "Project has been approved" }

def rejectedInfo : StatusInfo :=
  { value := Status.Rejected, label := "Rejected", color := "#d13438",
    backgroundColor := "#fde7e9", description := "Project has been rejected" }

/-- The `StatusConfig` record of `interfaces/Status.ts` (lines 24-81) as a
keyed lookup: a member code maps to its entry, any other key reads as JS
`undefined`, i.e. `none`. -/
def StatusConfig (status : Int) : Option StatusInfo :=
  if status = Status.NotStarted then some notStartedInfo
  else if status = Status.InProgress then some inProgressInfo
  else if status = Status.Completed then some completedInfo
  else if status = Status.OnHold then some onHoldInfo
  else if status = Status.Cancelled then some cancelledInfo
  else if status = Status.UnderReview then some underReviewInfo
  else if status = Status.Approved then some approvedInfo
  else if status = Status.Rejected then some rejectedInfo
  else none

/-- `getStatusInfo` of `interfaces/Status.ts` (lines 88-90):
`StatusConfig[status] || StatusConfig[Status.NotStarted]`; a present entry is
truthy, `undefined` falls back to the NotStarted entry. -/
def getStatusInfo (status : Int) : StatusInfo :=
  match StatusConfig status with
  | some info => info
  | none => notStartedInfo

/-- `getNextStatusOptions` of `interfaces/Status.ts` (lines 136-157). -/
def getNextStatusOptions (currentStatus : Int) : List Int :=
  if currentStatus = Status.NotStarted then
    [Status.InProgress, Status.OnHold, Status.Cancelled]
  else if currentStatus = Status.InProgress then
    [Status.Completed, Status.OnHold, Status.UnderReview]
  else if currentStatus = Status.OnHold then
    [Status.InProgress, Status.Cancelled]
  else if currentStatus = Status.UnderReview then
    [Status.Approved, Status.Rejected, Status.InProgress]
  else if currentStatus = Status.Approved then
    [Status.InProgress]
  else if currentStatus = Status.Rejected then
    [Status.InProgress, Status.Cancelled]
  else if currentStatus = Status.Completed then
    [Status.UnderReview]
  else if currentStatus = Status.Cancelled then
    [Status.NotStarted]
  else []

/-- C6: `getNextStatusOptions` realises exactly the spec's transition table on
the eight member codes and returns the empty set for every code outside the
enumeration. -/
theorem getNextStatusOptions_spec :
    getNextStatusOptions Status.NotStarted =
        [Status.InProgress, Status.OnHold, Status.Cancelled] ∧
    getNextStatusOptions Status.InProgress =
        [Status.Completed, Status.OnHold, Status.UnderReview] ∧
    getNextStatusOptions Status.OnHold = [Status.InProgress, Status.Cancelled] ∧
    getNextStatusOptions Status.UnderReview =
        [Status.Approved, Status.Rejected, Status.InProgress] ∧
    getNextStatusOptions Status.Approved = [Status.InProgress] ∧
    getNextStatusOptions Status.Rejected = [Status.InProgress, Status.Cancelled] ∧
    getNextStatusOptions Status.Completed = [Status.UnderReview] ∧
    getNextStatusOptions Status.Cancelled = [Status.NotStarted] ∧
    ∀ c : Int, c ∉ statusEnumeration → getNextStatusOptions c = [] := by
  refine ⟨by decide, by decide, by decide, by decide, by decide, by decide, by decide,
    by decide, ?_⟩
  intro c h
  simp only [statusEnumeration, List.mem_cons, List.not_mem_nil, or_false, not_or] at h
  obtain ⟨h0, h1, h2, h3, h4, h5, h6, h7⟩ := h
  simp [getNextStatusOptions, Status.NotStarted, Status.InProgress, Status.Completed,
    Status.OnHold, Status.Cancelled, Status.UnderReview, Status.Approved, Status.Rejected,
    h0, h1, h2, h3, h4, h5, h6, h7]

/-- C6 witness: the out-of-enumeration code 42 yields the empty set. -/
theorem getNextStatusOptions_witness : getNextStatusOptions 42 = [] :=
  getNextStatusOptions_spec.2.2.2.2.2.2.2.2 42 (by decide)

/-- C7: `getStatusInfo` is total: every member code of the enumeration maps to
its own registered `StatusInfo` entry (whose `value` is that code), and every
other code maps to the NotStarted entry as the defensive default. -/
theorem getStatusInfo_total (c : Int) :
    (c ∈ statusEnumeration →
       StatusConfig c = some (getStatusInfo c) ∧ (getStatusInfo c).value = c) ∧
    (c ∉ statusEnumeration →
       StatusConfig c = none ∧ getStatusInfo c = getStatusInfo Status.NotStarted) := by
  constructor
  · intro h
    simp only [statusEnumeration, List.mem_cons, List.not_mem_nil, or_false] at h
    rcases h with h | h | h | h | h | h | h | h <;> subst h <;> exact ⟨by decide, by decide⟩
  · intro h
    simp only [statusEnumeration, List.mem_cons, List.not_mem_nil, or_false, not_or] at h
    obtain ⟨h0, h1, h2, h3, h4, h5, h6, h7⟩ := h
    have hcfg : StatusConfig c = none := by
      simp [StatusConfig, Status.NotStarted, Status.InProgress, Status.Completed,
        Status.OnHold, Status.Cancelled, Status.UnderReview, Status.Approved,
        Status.Rejected, h0, h1, h2, h3, h4, h5, h6, h7]
    refine ⟨hcfg, ?_⟩
    unfold getStatusInfo
    rw [hcfg]
    decide

/-- C7 witness: the member code 5 maps to its own entry and the
out-of-enumeration code -3 falls back to the NotStarted entry. -/
theorem getStatusInfo_total_witness :
    (getStatusInfo 5).value = 5 ∧
    getStatusInfo (-3) = getStatusInfo Status.NotStarted := by
  constructor
  · exact ((getStatusInfo_total 5).1 (by decide)).2
  · exact ((getStatusInfo_total (-3)).2 (by decide)).2

/-- `updateProject` store action (`stores/projectStore.ts`, lines 190-200). -/
def updateProject (updatedProject : Project) (state : ProjectState) : ProjectState :=
  { state with
    projects := state.projects.map fun p =>
      if p.Id == updatedProject.Id then updatedProject else p,
    selectedProject :=
      match state.selectedProject with
      | some sp => if sp.Id == updatedProject.Id then some updatedProject else some sp
      | none => none }

/-- `removeProject` store action (`stores/projectStore.ts`, lines 202-210). -/
def removeProject (projectId : Int) (state : ProjectState) : ProjectState :=
  { state with
    projects := state.projects.filter fun p => p.Id != projectId,
    selectedProject :=
      match state.selectedProject with
      | some sp => if sp.Id == projectId then none else some sp
      | none => none }

/-- `bulkUpdateStatus` store action (lines 342-351); `now` stands for the
`new Date()` stamp taken when the action runs. -/
def bulkUpdateStatus (now : Int) (projectIds : List Int) (status : Int)
    (state : ProjectState) : ProjectState :=
  { state with
    projects := state.projects.map fun project =>
      if projectIds.contains project.Id then
        { project with Status := status, ModifiedDate := some now }
      else project }

/-- `bulkUpdatePriority` store action (lines 353-362). -/
def bulkUpdatePriority (now : Int) (projectIds : List Int) (priority : Int)
    (state : ProjectState) : ProjectState :=
  { state with
    projects := state.projects.map fun project =>
      if projectIds.contains project.Id then
        { project with Priority := some priority, ModifiedDate := some now }
      else project }

/-- C8: the bulk actions rewrite exactly the records whose `Id` is in the
given list, changing only the `Status` (resp. `Priority`) field and stamping
`ModifiedDate` with the action's clock, leave every other record and every
other component of the state unchanged, and preserve the number and order of
records. -/
theorem bulkUpdate_spec (now : Int) (ids : List Int) (status priority : Int)
    (st : ProjectState) :
    (bulkUpdateStatus now ids status st).projects.length = st.projects.length ∧
    (bulkUpdatePriority now ids priority st).projects.length = st.projects.length ∧
    (∀ (i : Nat) (p : Project), st.projects[i]? = some p →
       (bulkUpdateStatus now ids status st).projects[i]? =
         some (if ids.contains p.Id then
           { p with Status := status, ModifiedDate := some now }
         else p)) ∧
    (∀ (i : Nat) (p : Project), st.projects[i]? = some p →
       (bulkUpdatePriority now ids priority st).projects[i]? =
         some (if ids.contains p.Id then
           { p with Priority := some priority, ModifiedDate := some now }
         else p)) ∧
    (bulkUpdateStatus now ids status st).selectedProject = st.selectedProject ∧
    (bulkUpdateStatus now ids status st).filters = st.filters ∧
    (bulkUpdateStatus now ids status st).projectSummary = st.projectSummary ∧
    (bulkUpdatePriority now ids priority st).selectedProject = st.selectedProject ∧
    (bulkUpdatePriority now ids priority st).filters = st.filters ∧
    (bulkUpdatePriority now ids priority st).projectSummary = st.projectSummary := by
  refine ⟨by simp [bulkUpdateStatus], by simp [bulkUpdatePriority], ?_, ?_, rfl, rfl, rfl,
    rfl, rfl, rfl⟩
  · intro i p hp
    simp [bulkUpdateStatus, List.getElem?_map, hp]
  · intro i p hp
    simp [bulkUpdatePriority, List.getElem?_map, hp]

/-- C8 witness: with ids `[1, 2]` and a two-record store, both records get the
new status and the fresh stamp. -/
theorem bulkUpdate_witness :
    (bulkUpdateStatus 99 [1, 2] Status.OnHold
        { projects := [{ Id := 1, Name := "Test Project 1", Status := Status.InProgress, Progress := some 50 }, { Id := 2, Name := "Test Project 2", Status := Status.Completed, Progress := some 100 }] }).projects[0]? =
      some { Id := 1, Name := "Test Project 1", Status := Status.OnHold, Progress := some 50, ModifiedDate := some 99 } := by
  have h := (bulkUpdate_spec 99 [1, 2] Status.OnHold 0
    { projects := [{ Id := 1, Name := "Test Project 1", Status := Status.InProgress, Progress := some 50 }, { Id := 2, Name := "Test Project 2", Status := Status.Completed, Progress := some 100 }] }).2.2.1 0
    { Id := 1, Name := "Test Project 1", Status := Status.InProgress, Progress := some 50 }
    rfl
  rw [h]
  decide

/-- C9: `removeProject` deletes exactly the records whose `Id` equals the
given id, keeps the remaining records in their relative order, clears the
selection iff the selected record carried that id, and acts as claimed on the
spec's two-record scenario. -/
theorem removeProject_spec (id : Int) (st : ProjectState) :
    (removeProject id st).projects = st.projects.filter (fun p => p.Id != id) ∧
    (∀ p ∈ (removeProject id st).projects, p.Id ≠ id) ∧
    ((removeProject id st).projects).Sublist st.projects ∧
    (∀ p ∈ st.projects, p.Id ≠ id → p ∈ (removeProject id st).projects) ∧
    (∀ sp, st.selectedProject = some sp →
       (removeProject id st).selectedProject = if sp.Id = id then none else some sp) ∧
    (st.selectedProject = none → (removeProject id st).selectedProject = none) ∧
    (removeProject 1
        { projects := [{ Id := 1, Name := "Test Project 1", Status := Status.InProgress, Progress := some 50 }, { Id := 2, Name := "Test Project 2", Status := Status.Completed, Progress := some 100 }], selectedProject := some { Id := 1, Name := "Test Project 1", Status := Status.InProgress, Progress := some 50 } }).projects =
      [{ Id := 2, Name := "Test Project 2", Status := Status.Completed, Progress := some 100 }] ∧
    (removeProject 1
        { projects := [{ Id := 1, Name := "Test Project 1", Status := Status.InProgress, Progress := some 50 }, { Id := 2, Name := "Test Project 2", Status := Status.Completed, Progress := some 100 }], selectedProject := some { Id := 1, Name := "Test Project 1", Status := Status.InProgress, Progress := some 50 } }).selectedProject =
      none := by
  refine ⟨rfl, ?_, ?_, ?_, ?_, ?_, by decide, by decide⟩
  · intro p hp
    have := (List.mem_filter.mp hp).2
    simpa [bne] using this
  · exact List.filter_sublist _
  · intro p hp hne
    exact List.mem_filter.mpr ⟨hp, by simpa [bne] using hne⟩
  · intro sp hsp
    simp only [removeProject, hsp]
    by_cases h : sp.Id = id <;> simp [h]
  · intro h
    simp [removeProject, h]

/-- C9 witness: removing id 2 from a store whose selection is a different
record keeps the selection. -/
theorem removeProject_witness :
    (removeProject 2
        { projects := [{ Id := 2, Name := "B", Status := 0 }],
          selectedProject := some { Id := 1, Name := "A", Status := 0 } }).selectedProject =
      some { Id := 1, Name := "A", Status := 0 } := by
  have h := (removeProject_spec 2
    { projects := [{ Id := 2, Name := "B", Status := 0 }],
      selectedProject := some { Id := 1, Name := "A", Status := 0 } }).2.2.2.2.1
    { Id := 1, Name := "A", Status := 0 } rfl
  rw [h]
  decide

/-- C10: `updateProject r` swaps in `r` for every stored record whose `Id`
equals `r.Id`, is a no-op on the collection when no record matches, preserves
length and order, replaces the selection by `r` exactly when the selected
record carries `r.Id`, and leaves the rest of the state unchanged. -/
theorem updateProject_spec (r : Project) (st : ProjectState) :
    (updateProject r st).projects.length = st.projects.length ∧
    (∀ (i : Nat) (p : Project), st.projects[i]? = some p →
       (updateProject r st).projects[i]? = some (if p.Id = r.Id then r else p)) ∧
    ((∀ p ∈ st.projects, p.Id ≠ r.Id) → (updateProject r st).projects = st.projects) ∧
    (∀ sp, st.selectedProject = some sp →
       (updateProject r st).selectedProject =
         if sp.Id = r.Id then some r else some sp) ∧
    (st.selectedProject = none → (updateProject r st).selectedProject = none) ∧
    (updateProject r st).filters = st.filters ∧
    (updateProject r st).projectSummary = st.projectSummary ∧
    (updateProject r st).searchText = st.searchText := by
  refine ⟨by simp [updateProject], ?_, ?_, ?_, ?_, rfl, rfl, rfl⟩
  · intro i p hp
    simp only [updateProject, List.getElem?_map, hp, Option.map_some]
    by_cases h : p.Id = r.Id <;> simp [h]
  · intro h
    simp only [updateProject]
    rw [List.map_congr_left, List.map_id]
    intro p hp
    simp [h p hp]
  · intro sp hsp
    simp only [updateProject, hsp]
    by_cases h : sp.Id = r.Id <;> simp [h]
  · intro h
    simp [updateProject, h]

/-- C10 witness: updating a record replaces the matching entry and the
matching selection. -/
theorem updateProject_witness :
    (updateProject { Id := 1, Name := "New", Status := 1 }
        { projects := [{ Id := 1, Name := "Old", Status := 0 }],
          selectedProject := some { Id := 1, Name := "Old", Status := 0 } }).projects[0]? =
      some { Id := 1, Name := "New", Status := 1 } := by
  have h := (updateProject_spec { Id := 1, Name := "New", Status := 1 }
    { projects := [{ Id := 1, Name := "Old", Status := 0 }],
      selectedProject := some { Id := 1, Name := "Old", Status := 0 } }).2.1 0
    { Id := 1, Name := "Old", Status := 0 } rfl
  rw [h]
  decide

end Bwtask
